import Mathlib

/-!
Verification of the decode/playback synchronization core of the
Gausian native editor (Rust sources under `apps/desktop` and
`crates/native-decoder`).

Shallow embedding conventions:
* `f64` presentation timestamps and durations are modelled as `ℚ`
  (every stored timestamp runs through GStreamer nanosecond clock
  values or finite fallbacks, so the `is_finite` guards of the source
  are always `true` in the model);
* `Instant` values are modelled as absolute milliseconds (`ℕ`),
  matching the source's `elapsed().as_millis()` comparisons;
* stateful Rust methods become pure functions returning the updated
  state together with the observable effects (published frames,
  pipeline seek calls, backend calls).
-/

namespace Gausian

/-- Pixel formats of `native_decoder::YuvPixFmt`. -/
inductive YuvPixFmt
  | Nv12
  | P010
deriving DecidableEq, Repr

/-- `native_decoder::VideoFrame` (gstreamer backend output frame). -/
structure VideoFrame where
  format : YuvPixFmt
  y_plane : List ℕ
  uv_plane : List ℕ
  width : ℕ
  height : ℕ
  timestamp : ℚ
deriving DecidableEq, Repr

/-! ## FrameRing (`crates/native-decoder/src/gstreamer_backend.rs`) -/

/-- `FrameRing`: bounded vector of decoded frames with FIFO eviction. -/
structure FrameRing where
  frames : List VideoFrame
  cap : ℕ
deriving DecidableEq, Repr

namespace FrameRing

/-- `FrameRing::new(cap)`. -/
def new (cap : ℕ) : FrameRing := ⟨[], cap⟩

/-- `FrameRing::clear`. -/
def clear (r : FrameRing) : FrameRing := { r with frames := [] }

/-- `FrameRing::len`. -/
def len (r : FrameRing) : ℕ := r.frames.length

/-- `FrameRing::push`: if `len >= cap`, `Vec::remove(0)` (drop the
oldest) first, then append.  (`remove(0)` on an empty vector panics in
Rust; that path is only reachable with `cap = 0`, and the backend
always constructs the ring with `cap = 12`.) -/
def push (r : FrameRing) (f : VideoFrame) : FrameRing :=
  if r.frames.length ≥ r.cap then { r with frames := r.frames.tail ++ [f] }
  else { r with frames := r.frames ++ [f] }

/-- The scan loop of `FrameRing::pop_nearest_at_or_before`: walk the
frames in order, remembering `(index, dt)` of the best candidate so
far, where a frame qualifies when `pts <= target` and strictly
improves when `dt = target - pts` is smaller than the best `dt`
(`best_dt` starts at `f64::INFINITY`, modelled by the `none`
accumulator).  All model timestamps are finite rationals, so the
source's `pts.is_finite()` conjunct is always true. -/
def stepAcc (t : ℚ) (f : VideoFrame) (i : ℕ) (acc : Option (ℕ × ℚ)) :
    Option (ℕ × ℚ) :=
  if f.timestamp ≤ t then
    let dt := t - f.timestamp
    match acc with
    | none => some (i, dt)
    | some p => if dt < p.2 then some (i, dt) else acc
  else acc

/-- The iteration over `frames.iter().enumerate()`. -/
def bestScan (t : ℚ) : List VideoFrame → ℕ → Option (ℕ × ℚ) → Option (ℕ × ℚ)
  | [], _, acc => acc
  | f :: rest, i, acc => bestScan t rest (i + 1) (stepAcc t f i acc)

/-- `FrameRing::pop_nearest_at_or_before(target)`: remove and return
the best candidate found by the scan; if no frame qualifies, remove
and return the oldest (`remove(0)`); `None` only when empty. -/
def pop_nearest_at_or_before (r : FrameRing) (t : ℚ) :
    Option VideoFrame × FrameRing :=
  match r.frames with
  | [] => (none, r)
  | _ :: _ =>
    match bestScan t r.frames 0 none with
    | some (i, _) => (r.frames[i]?, { r with frames := r.frames.eraseIdx i })
    | none => (r.frames.head?, { r with frames := r.frames.tail })

/-- Invariant of the scan accumulator relative to the prefix of frames
already visited: `none` means no visited frame qualifies; `some (i, dt)`
records the position `i` of the earliest qualifying frame of maximal
timestamp among those visited, with `dt` its distance to the target. -/
def AccOk (t : ℚ) (pre : List VideoFrame) : Option (ℕ × ℚ) → Prop
  | none => ∀ f ∈ pre, ¬ f.timestamp ≤ t
  | some (i, dt) =>
      ∃ g, pre[i]? = some g ∧ g.timestamp ≤ t ∧ dt = t - g.timestamp ∧
        ∀ f ∈ pre, f.timestamp ≤ t → dt ≤ t - f.timestamp

end FrameRing

/-- A payload-free frame at a given pts, used for concrete test rings. -/
def exFrame (q : ℚ) : VideoFrame := ⟨.Nv12, [], [], 0, 0, q⟩

/-! ## GstDecoder (`crates/native-decoder/src/gstreamer_backend.rs`) -/

/-- Pipeline seeks issued through `gst::Pipeline::seek_simple`. -/
inductive PipelineSeek
  | flush_accurate (t : ℚ)
  | flush_key_unit (t : ℚ)
deriving DecidableEq, Repr

/-- The decode-relevant state of `GstDecoder`.  `last_out_pts = none`
models the initial `f64::NAN` ("never output"); every later value is a
finite timestamp. -/
structure GstDecoder where
  strict_paused : Bool
  ring : FrameRing
  last_seek : ℚ
  last_out_pts : Option ℚ
deriving DecidableEq, Repr

/-- `GstDecoder::new`: `last_seek = -1.0`, ring capacity 12, streaming
mode. -/
def GstDecoder.new : GstDecoder := ⟨false, FrameRing.new 12, -1, none⟩

/-- `GstDecoder::seek_to_internal`: a FLUSH|ACCURATE pipeline seek,
recording `last_seek`. -/
def GstDecoder.seek_to_internal (d : GstDecoder) (timestamp : ℚ) :
    GstDecoder × List PipelineSeek :=
  ({ d with last_seek := timestamp }, [.flush_accurate timestamp])

/-- `GstDecoder::decode_frame`.  `incoming` abstracts the samples the
appsink yields during this call's `fill_ring_from_sink` (strict-paused
mode stops after the first pushed preroll sample; streaming mode pulls
at most its 6 attempts). -/
def GstDecoder.decode_frame (d : GstDecoder) (timestamp : ℚ)
    (incoming : List VideoFrame) :
    GstDecoder × Option VideoFrame × List PipelineSeek :=
  let big_jump : Bool :=
    match d.last_out_pts with
    | some p => decide (|timestamp - p| > 1/4)
    | none => false
  let need_seek : Bool :=
    (d.ring.len == 0) && (d.last_out_pts.isNone || big_jump)
  let seekStep :=
    if need_seek && !d.strict_paused then
      let r := d.seek_to_internal timestamp
      ({ r.1 with ring := r.1.ring.clear }, r.2)
    else (d, ([] : List PipelineSeek))
  let d1 := seekStep.1
  let pulled := if d1.strict_paused then incoming.take 1 else incoming.take 6
  let d2 := { d1 with ring := pulled.foldl FrameRing.push d1.ring }
  let popped := d2.ring.pop_nearest_at_or_before timestamp
  let d3 :=
    { d2 with
        ring := popped.2,
        last_out_pts :=
          match popped.1 with
          | some f => some f.timestamp
          | none => d2.last_out_pts }
  (d3, popped.1, seekStep.2)

/-- `GstDecoder::seek_to`: enter strict-paused preroll mode, clear the
ring, then an accurate internal seek. -/
def GstDecoder.seek_to (d : GstDecoder) (timestamp : ℚ) :
    GstDecoder × List PipelineSeek :=
  let d1 := { d with strict_paused := true, ring := d.ring.clear }
  d1.seek_to_internal timestamp

/-- `GstDecoder::seek_to_keyframe`: strict-paused mode, clear the ring,
FLUSH|KEY_UNIT pipeline seek, record `last_seek`. -/
def GstDecoder.seek_to_keyframe (d : GstDecoder) (timestamp : ℚ) :
    GstDecoder × List PipelineSeek :=
  let d1 := { d with strict_paused := true, ring := d.ring.clear }
  ({ d1 with last_seek := timestamp }, [.flush_key_unit timestamp])

/-- `GstDecoder::set_strict_paused`. -/
def GstDecoder.set_strict_paused (d : GstDecoder) (strict : Bool) :
    GstDecoder :=
  { d with strict_paused := strict }

/-! ## DecodeWorker (`apps/desktop/src/decode/worker.rs`) -/

/-- `PlayState`. -/
inductive PlayState
  | Paused
  | Seeking
  | Playing
  | Scrubbing
deriving DecidableEq, Repr

/-- `DecodeCmd` (consumer → worker commands). -/
inductive DecodeCmd
  | Play (start_pts : ℚ) (rate : ℚ)
  | Seek (target_pts : ℚ)
  | Pause
  | Stop
deriving DecidableEq, Repr

/-- `VideoProps` of a published frame. -/
structure VideoProps where
  w : ℕ
  h : ℕ
  fps : ℚ
  fmt : YuvPixFmt
deriving DecidableEq, Repr

/-- `VideoFrameOut`: frame published into the latest-frame slot.  The
`FramePayload::Cpu` planes are inlined as `y`/`uv`. -/
structure VideoFrameOut where
  pts : ℚ
  props : VideoProps
  y : List ℕ
  uv : List ℕ
  accurate : Bool
deriving DecidableEq, Repr

/-- The mutable loop state of the `spawn_worker` thread. -/
@[ext]
structure WState where
  mode : PlayState
  rate : ℚ
  anchor_pts : ℚ
  anchor_t : ℕ
  running : Bool
  need_seek_decode : Bool
  last_seek_target : Option ℚ
  seek_started_at : Option ℕ
  approx_shown : Bool
deriving DecidableEq, Repr

/-- Initial loop state of `spawn_worker`. -/
def initWState (now : ℕ) : WState :=
  { mode := .Paused, rate := 1, anchor_pts := 0, anchor_t := now,
    running := true, need_seek_decode := false, last_seek_target := none,
    seek_started_at := none, approx_shown := false }

/-- Calls the worker makes on the decoder backend. -/
inductive BackendCall
  | seek_to_keyframe (t : ℚ)
  | seek_to (t : ℚ)
  | set_strict_paused (b : Bool)
deriving DecidableEq, Repr

/-- `f64::EPSILON`, the seek-coalescing threshold. -/
def machineEps : ℚ := 1 / 2 ^ 52

/-- The command-drain arm of the worker loop (one command). -/
def handleCmd (now : ℕ) (s : WState) : DecodeCmd → WState × List BackendCall
  | .Play start_pts r =>
      if s.mode ≠ .Playing then
        ({ s with
            mode := .Playing,
            anchor_pts := start_pts,
            anchor_t := now,
            rate := r,
            need_seek_decode := false,
            last_seek_target := none,
            seek_started_at := none },
         [.set_strict_paused false])
      else
        ({ s with
            rate := r,
            need_seek_decode := false,
            last_seek_target := none,
            seek_started_at := none }, [])
  | .Seek target_pts =>
      ({ s with
          mode := .Seeking,
          anchor_pts := target_pts,
          need_seek_decode := true,
          last_seek_target := none }, [])
  | .Pause =>
      (if s.need_seek_decode then s else { s with mode := .Paused }, [])
  | .Stop => ({ s with running := false }, [])

/-- Result of one `Seeking`/`Scrubbing` loop-body iteration. -/
@[ext]
structure SeekTickOut where
  state : WState
  published : Option VideoFrameOut
  calls : List BackendCall
deriving DecidableEq, Repr

/-- Seek-coalescing stage of the seeking loop body: re-issue the seek to
the decoder only when the target changed (`last_seek_target` differs
from `target` by more than `f64::EPSILON`, or no seek is in flight);
key-unit for the approximate stage, precise for the accurate stage. -/
def seekIssue (now : ℕ) (s : WState) : WState × List BackendCall :=
  let target := s.anchor_pts
  let fresh : Bool :=
    match s.last_seek_target with
    | some t => decide (|t - target| > machineEps)
    | none => true
  if fresh then
    ({ s with
        last_seek_target := some target,
        seek_started_at := some now },
     [if !s.approx_shown then .seek_to_keyframe target else .seek_to target])
  else (s, [])

/-- Outcome stage of the seeking loop body, after the bounded block of
`decode_frame` coax attempts produced `decoded`: on success publish
(`accurate = approx_shown`), then either arm the accurate stage or
transition to `Paused`; on failure re-issue the same seek once the
800 ms timeout has elapsed. -/
def seekDecodeOutcome (fps : ℚ) (now : ℕ) (s1 : WState)
    (calls1 : List BackendCall) : Option VideoFrame → SeekTickOut
  | some vf =>
      let out : VideoFrameOut :=
        { pts := vf.timestamp,
          props := { w := vf.width, h := vf.height, fps := fps, fmt := vf.format },
          y := vf.y_plane,
          uv := vf.uv_plane,
          accurate := s1.approx_shown }
      if !s1.approx_shown then
        { state := { s1 with approx_shown := true, last_seek_target := none },
          published := some out,
          calls := calls1 }
      else
        { state :=
            { s1 with
                need_seek_decode := false,
                mode := .Paused,
                last_seek_target := none,
                seek_started_at := none,
                approx_shown := false },
          published := some out,
          calls := calls1 }
  | none =>
      match s1.seek_started_at with
      | some t0 =>
          if now - t0 > 800 then
            { state :=
                { s1 with
                    last_seek_target := some s1.anchor_pts,
                    seek_started_at := some now },
              published := none,
              calls := calls1 ++
                [if !s1.approx_shown then .seek_to_keyframe s1.anchor_pts
                 else .seek_to s1.anchor_pts] }
          else { state := s1, published := none, calls := calls1 }
      | none => { state := s1, published := none, calls := calls1 }

/-- The `PlayState::Seeking | PlayState::Scrubbing` body of the worker
loop (one iteration): nothing happens unless a seek decode is pending;
otherwise coalesce/issue the seek, run the decode attempts, and handle
the outcome.  `decoded` abstracts the outcome of the bounded
`PREFETCH_BUDGET_PER_TICK` coax attempts; `now` is the current instant
in ms. -/
def seekTick (fps : ℚ) (now : ℕ) (s : WState) (decoded : Option VideoFrame) :
    SeekTickOut :=
  if s.need_seek_decode then
    let r := seekIssue now s
    seekDecodeOutcome fps now r.1 r.2 decoded
  else { state := s, published := none, calls := [] }

/-- One observable worker-loop step: handle one drained command, or run
one loop-body iteration.  The `Playing` and `Paused` bodies do not
change any loop-state field (they only publish/sleep), so only the
seeking tick transforms the state. -/
inductive WEvent
  | cmd (c : DecodeCmd) (now : ℕ)
  | tick (decoded : Option VideoFrame) (fps : ℚ) (now : ℕ)

def wstep (s : WState) : WEvent → WState
  | .cmd c now => (handleCmd now s c).1
  | .tick d fps now =>
      if s.mode = .Seeking ∨ s.mode = .Scrubbing then (seekTick fps now s d).state
      else s

/-- Worker-loop invariant: while `Playing`, no seek bookkeeping is
pending. -/
def WInv (s : WState) : Prop :=
  s.mode = .Playing →
    s.need_seek_decode = false ∧ s.last_seek_target = none ∧
      s.seek_started_at = none

/-! ## DispatchController and FrameSelector
(`apps/desktop/src/preview/ui.rs`) -/

/-- Clip fps selection: fps of the latest published frame when positive
(and finite, always true in ℚ), else the sequence fps. -/
def clipFpsOf (latest : Option VideoFrameOut) (seq_fps : ℚ) : ℚ :=
  match latest with
  | some f => if 0 < f.props.fps then f.props.fps else seq_fps
  | none => seq_fps

/-- `frame_dur = if clip_fps > 0.0 { 1.0 / clip_fps } else { 1.0 / 30.0 }`. -/
def frameDurOf (clip_fps : ℚ) : ℚ :=
  if 0 < clip_fps then 1 / clip_fps else 1 / 30

/-- `epsilon = (0.25 * frame_dur).max(0.010)`. -/
def epsilonOf (frame_dur : ℚ) : ℚ := max ((1 / 4) * frame_dur) (1 / 100)

/-- The `Scrubbing | Seeking` dispatch arm: epsilon-gate a `Seek`.
Returns the updated `last_seek_sent_pts` and whether the command was
sent. -/
def seekDispatchStep (eps : ℚ) (last_seek_sent : Option ℚ) (target : ℚ) :
    Option ℚ × Bool :=
  let need : Bool :=
    match last_seek_sent with
    | some last => decide (|target - last| > eps)
    | none => true
  if need then (some target, true) else (last_seek_sent, false)

/-- Iterated dispatch over a sequence of per-redraw targets, counting
sent `Seek` commands. -/
def seekDispatchRun (eps : ℚ) : Option ℚ → List ℚ → Option ℚ × ℕ
  | st, [] => (st, 0)
  | st, t :: ts =>
      let r := seekDispatchStep eps st t
      let rest := seekDispatchRun eps r.1 ts
      (rest.1, (if r.2 then 1 else 0) + rest.2)

/-- The premise of the epsilon-idempotence clause: each call's target is
within `eps` of the seek pts last sent at the time of that call (no
constraint before the first send). -/
def WithinEps (eps : ℚ) : Option ℚ → List ℚ → Prop
  | _, [] => True
  | none, t :: ts => WithinEps eps (some t) ts
  | some p, t :: ts => |t - p| ≤ eps ∧ WithinEps eps (some p) ts

/-- Adaptive re-seek timeout of the `Paused` dispatch arm:
`(frame_dur * 1000.0 * 8.0).max(450.0).min(1500.0) as u128` (the `f64 →
u128` cast truncates; the clamped value is nonnegative, so this is the
floor). -/
def adaptiveMs (frame_dur : ℚ) : ℕ :=
  (⌊min (max (frame_dur * 1000 * 8) 450) 1500⌋).toNat

/-- The `PlayState::Paused` dispatch arm: send `Seek{media_t}` iff the
epsilon test requires it, or the pending seek went stale while the
newest published frame is still approximate (no frame counts as
approximate). -/
def pausedDispatchSends (eps frame_dur : ℚ) (last_seek_sent : Option ℚ)
    (last_seek_request_at : Option ℕ) (now : ℕ)
    (newest : Option VideoFrameOut) (media_t : ℚ) : Bool :=
  let need : Bool :=
    match last_seek_sent with
    | some last => decide (|media_t - last| > eps)
    | none => true
  let waiting_for_accurate : Bool :=
    match newest with
    | some f => !f.accurate
    | none => true
  let stale_seek : Bool :=
    match last_seek_request_at with
    | some t =>
        if waiting_for_accurate then decide (now - t > adaptiveMs frame_dur)
        else false
    | none => false
  need || stale_seek

/-- Display tolerance of the frame-acceptance policy:
`(1.0 * frame_dur).max(0.020)`. -/
def displayTol (frame_dur : ℚ) : ℚ := max (1 * frame_dur) (1 / 50)

/-- The frame-acceptance policy (`picked` in `preview_ui`): `Playing`
and strict pause take the newest frame; otherwise the source matches
`Some(f) if close => Some(f)` and falls through to `other => other`. -/
def pickFrame (state : PlayState) (strict_pause : Bool)
    (newest : Option VideoFrameOut) (media_t tol : ℚ) :
    Option VideoFrameOut :=
  if state = .Playing then newest
  else if strict_pause then newest
  else
    match newest with
    | some f => if |f.pts - media_t| ≤ tol then some f else newest
    | none => none

/-- Modelled from the spec: the worker's stalled-seek "adaptive timeout
(scaled to the clip's frame duration, clamped to a sane floor/ceiling)"
of §4.2/§7, which the spec leaves without constants for the worker;
instantiated with the one concrete adaptive-timeout family the spec
gives (DispatchController §4.3: ≈8 frame durations, bounded to
450–1500 ms). -/
def adaptiveTimeoutSpecMs (frame_dur : ℚ) : ℕ :=
  (⌊min (max (frame_dur * 1000 * 8) 450) 1500⌋).toNat

/-- A latest-slot frame far from the target, used as concrete input. -/
def lateFrame : VideoFrameOut :=
  { pts := 10, props := { w := 0, h := 0, fps := 24, fmt := .Nv12 },
    y := [], uv := [], accurate := false }

/-- A concrete stalled mid-seek worker state: seeking towards pts 2,
key-unit seek already issued at instant 0 and still coalesced. -/
def exStalled : WState :=
  { mode := .Seeking, rate := 1, anchor_pts := 2, anchor_t := 0,
    running := true, need_seek_decode := true, last_seek_target := some 2,
    seek_started_at := some 0, approx_shown := false }

end Gausian

namespace Gausian

namespace FrameRing

lemma accOk_step (t : ℚ) (pre : List VideoFrame) (f : VideoFrame)
    (acc : Option (ℕ × ℚ)) (h : AccOk t pre acc) :
    AccOk t (pre ++ [f]) (stepAcc t f pre.length acc) := by
  by_cases hq : f.timestamp ≤ t
  · cases acc with
    | none =>
        simp only [stepAcc, if_pos hq]
        refine ⟨f, by simp, hq, rfl, ?_⟩
        intro g hg hgt
        rcases List.mem_append.1 hg with hg | hg
        · exact absurd hgt (h g hg)
        · simp only [List.mem_singleton] at hg
          subst hg; exact le_refl _
    | some p =>
        obtain ⟨i, dt⟩ := p
        obtain ⟨g, hget, hgle, hdt, hmax⟩ := h
        have hi : i < pre.length := (List.getElem?_eq_some.1 hget).1
        by_cases hlt : t - f.timestamp < dt
        · simp only [stepAcc, if_pos hq, if_pos hlt]
          refine ⟨f, by simp, hq, rfl, ?_⟩
          intro g' hg' hgt'
          rcases List.mem_append.1 hg' with hg' | hg'
          · exact le_of_lt (lt_of_lt_of_le hlt (hmax g' hg' hgt'))
          · simp only [List.mem_singleton] at hg'
            subst hg'; exact le_refl _
        · simp only [stepAcc, if_pos hq, if_neg hlt]
          refine ⟨g, ?_, hgle, hdt, ?_⟩
          · rw [List.getElem?_append_left hi]; exact hget
          · intro g' hg' hgt'
            rcases List.mem_append.1 hg' with hg' | hg'
            · exact hmax g' hg' hgt'
            · simp only [List.mem_singleton] at hg'
              subst hg'; exact le_of_not_lt hlt
  · cases acc with
    | none =>
        simp only [stepAcc, if_neg hq]
        intro g hg
        rcases List.mem_append.1 hg with hg | hg
        · exact h g hg
        · simp only [List.mem_singleton] at hg
          subst hg; exact hq
    | some p =>
        obtain ⟨i, dt⟩ := p
        obtain ⟨g, hget, hgle, hdt, hmax⟩ := h
        have hi : i < pre.length := (List.getElem?_eq_some.1 hget).1
        simp only [stepAcc, if_neg hq]
        refine ⟨g, ?_, hgle, hdt, ?_⟩
        · rw [List.getElem?_append_left hi]; exact hget
        · intro g' hg' hgt'
          rcases List.mem_append.1 hg' with hg' | hg'
          · exact hmax g' hg' hgt'
          · simp only [List.mem_singleton] at hg'
            subst hg'; exact absurd hgt' hq

lemma bestScan_ok (t : ℚ) :
    ∀ (l pre : List VideoFrame) (acc : Option (ℕ × ℚ)),
      AccOk t pre acc → AccOk t (pre ++ l) (bestScan t l pre.length acc)
  | [], pre, acc, h => by simpa using h
  | f :: rest, pre, acc, h => by
      have step := accOk_step t pre f acc h
      have ih := bestScan_ok t rest (pre ++ [f]) (stepAcc t f pre.length acc)
        step
      simp only [bestScan]
      have hlen : (pre ++ [f]).length = pre.length + 1 := by simp
      rw [hlen] at ih
      simpa [List.append_assoc] using ih

/-- The scan over the whole frame list, as used by the pop, satisfies
the accumulator invariant. -/
lemma bestScan_full (t : ℚ) (l : List VideoFrame) :
    AccOk t l (bestScan t l 0 none) := by
  have h := bestScan_ok t l [] none (by intro f hf; cases hf)
  simpa using h

end FrameRing

/-! ### Worker-tick helper lemmas -/

lemma seekIssue_fields (now : ℕ) (s : WState) :
    (seekIssue now s).1.mode = s.mode ∧
      (seekIssue now s).1.need_seek_decode = s.need_seek_decode ∧
      (seekIssue now s).1.approx_shown = s.approx_shown ∧
      (seekIssue now s).1.anchor_pts = s.anchor_pts := by
  simp only [seekIssue]
  split <;> exact ⟨rfl, rfl, rfl, rfl⟩

lemma seekIssue_of_last_none (now : ℕ) (s : WState)
    (hl : s.last_seek_target = none) :
    seekIssue now s =
      ({ s with
          last_seek_target := some s.anchor_pts,
          seek_started_at := some now },
       [if !s.approx_shown then .seek_to_keyframe s.anchor_pts
        else .seek_to s.anchor_pts]) := by
  simp [seekIssue, hl]

lemma seekIssue_of_last_self (now : ℕ) (s : WState)
    (hl : s.last_seek_target = some s.anchor_pts) :
    seekIssue now s = (s, []) := by
  have h0 : ¬ machineEps < 0 := by
    simp only [machineEps]
    norm_num
  simp [seekIssue, hl, h0]

lemma seekDecodeOutcome_some (fps : ℚ) (now : ℕ) (s1 : WState)
    (calls1 : List BackendCall) (vf : VideoFrame) :
    seekDecodeOutcome fps now s1 calls1 (some vf) =
      (if s1.approx_shown then
        { state :=
            { s1 with
                need_seek_decode := false,
                mode := .Paused,
                last_seek_target := none,
                seek_started_at := none,
                approx_shown := false },
          published := some ⟨vf.timestamp,
            ⟨vf.width, vf.height, fps, vf.format⟩,
            vf.y_plane, vf.uv_plane, true⟩,
          calls := calls1 }
      else
        { state := { s1 with approx_shown := true, last_seek_target := none },
          published := some ⟨vf.timestamp,
            ⟨vf.width, vf.height, fps, vf.format⟩,
            vf.y_plane, vf.uv_plane, false⟩,
          calls := calls1 }) := by
  simp only [seekDecodeOutcome]
  cases ha : s1.approx_shown <;> simp [ha]

lemma seekDecodeOutcome_none_pub (fps : ℚ) (now : ℕ) (s1 : WState)
    (calls1 : List BackendCall) :
    (seekDecodeOutcome fps now s1 calls1 none).published = none ∧
      (seekDecodeOutcome fps now s1 calls1 none).state.mode = s1.mode ∧
      (seekDecodeOutcome fps now s1 calls1 none).state.need_seek_decode =
        s1.need_seek_decode := by
  simp only [seekDecodeOutcome]
  cases hst : s1.seek_started_at with
  | none => simp [hst]
  | some t0 =>
      simp only [hst]
      split <;> simp

lemma seekTick_not_need (fps : ℚ) (now : ℕ) (s : WState)
    (d : Option VideoFrame) (hn : s.need_seek_decode = false) :
    seekTick fps now s d = ⟨s, none, []⟩ := by
  simp [seekTick, hn]

lemma seekTick_none_char (fps : ℚ) (now : ℕ) (s : WState)
    (hn : s.need_seek_decode = true) :
    (seekTick fps now s none).published = none ∧
      (seekTick fps now s none).state.mode = s.mode ∧
      (seekTick fps now s none).state.need_seek_decode = true := by
  have hfields := seekIssue_fields now s
  have h := seekDecodeOutcome_none_pub fps now (seekIssue now s).1
    (seekIssue now s).2
  simp only [seekTick, hn, if_true]
  refine ⟨h.1, ?_, ?_⟩
  · rw [h.2.1, hfields.1]
  · rw [h.2.2, hfields.2.1, hn]

lemma seekTick_some_char (fps : ℚ) (now : ℕ) (s : WState) (vf : VideoFrame)
    (hn : s.need_seek_decode = true) :
    (seekTick fps now s (some vf)).published =
        some ⟨vf.timestamp, ⟨vf.width, vf.height, fps, vf.format⟩,
          vf.y_plane, vf.uv_plane, s.approx_shown⟩ ∧
      (seekTick fps now s (some vf)).state.mode =
        (if s.approx_shown then .Paused else s.mode) ∧
      (seekTick fps now s (some vf)).state.need_seek_decode =
        !s.approx_shown ∧
      (seekTick fps now s (some vf)).state.approx_shown =
        !s.approx_shown ∧
      (seekTick fps now s (some vf)).state.last_seek_target = none := by
  obtain ⟨hm, hneed, happ, hanch⟩ := seekIssue_fields now s
  simp only [seekTick, hn, if_true,
    seekDecodeOutcome_some fps now (seekIssue now s).1 (seekIssue now s).2 vf,
    happ]
  cases ha : s.approx_shown with
  | false => simp [hm, hneed, hn, ha]
  | true => simp [hm, hneed, hn, ha]

lemma seekTick_some_calls (fps : ℚ) (now : ℕ) (s : WState) (vf : VideoFrame)
    (hn : s.need_seek_decode = true) (hl : s.last_seek_target = none) :
    (seekTick fps now s (some vf)).calls =
      [if !s.approx_shown then .seek_to_keyframe s.anchor_pts
       else .seek_to s.anchor_pts] := by
  simp only [seekTick, hn, if_true, seekIssue_of_last_none now s hl]
  cases ha : s.approx_shown <;>
    simp [seekDecodeOutcome_some, ha]

lemma seekTick_mode_cases (fps : ℚ) (now : ℕ) (s : WState)
    (d : Option VideoFrame) :
    (seekTick fps now s d).state.mode = s.mode ∨
      (seekTick fps now s d).state.mode = .Paused := by
  cases hn : s.need_seek_decode with
  | false => rw [seekTick_not_need fps now s d hn]; exact Or.inl rfl
  | true =>
      cases d with
      | none => exact Or.inl (seekTick_none_char fps now s hn).2.1
      | some vf =>
          have h := (seekTick_some_char fps now s vf hn).2.1
          cases ha : s.approx_shown with
          | false => rw [ha] at h; simp at h; exact Or.inl h
          | true => rw [ha] at h; simp at h; exact Or.inr h

/-- **C1**: `pop_nearest_at_or_before(t)` removes and returns the stored
frame with the greatest pts `≤ t`; if no stored frame has pts `≤ t` it
removes and returns the oldest stored frame; it returns nothing only
when the ring is empty.  In particular, on pts `{1, 2, 3.5}` with target
`3` it returns the frame at `2`, and on `{5, 6}` with target `1` it
returns the oldest frame at `5`. -/
theorem C1_pop_nearest_at_or_before_correct :
    (∀ (r : FrameRing) (t : ℚ),
      ((r.pop_nearest_at_or_before t).1 = none ↔ r.frames = []) ∧
      ((∃ f ∈ r.frames, f.timestamp ≤ t) →
        ∃ i g, r.frames[i]? = some g ∧
          (r.pop_nearest_at_or_before t).1 = some g ∧
          (r.pop_nearest_at_or_before t).2.frames = r.frames.eraseIdx i ∧
          g.timestamp ≤ t ∧
          (∀ f ∈ r.frames, f.timestamp ≤ t → f.timestamp ≤ g.timestamp) ∧
          (r.pop_nearest_at_or_before t).2.frames.length + 1 =
            r.frames.length) ∧
      ((∀ f ∈ r.frames, ¬ f.timestamp ≤ t) → r.frames ≠ [] →
        (r.pop_nearest_at_or_before t).1 = r.frames.head? ∧
        (r.pop_nearest_at_or_before t).2.frames = r.frames.tail)) ∧
    ((FrameRing.mk [exFrame 1, exFrame 2, exFrame (mkRat 7 2)]
        12).pop_nearest_at_or_before 3).1 = some (exFrame 2) ∧
    ((FrameRing.mk [exFrame 5, exFrame 6]
        12).pop_nearest_at_or_before 1).1 = some (exFrame 5) := by
  refine ⟨?_, ?_, ?_⟩
  case refine_2 =>
    norm_num [FrameRing.pop_nearest_at_or_before, FrameRing.bestScan,
      FrameRing.stepAcc, exFrame]
    rfl
  case refine_3 =>
    norm_num [FrameRing.pop_nearest_at_or_before, FrameRing.bestScan,
      FrameRing.stepAcc, exFrame]
  rintro ⟨fs, cap⟩ t
  have hAcc := FrameRing.bestScan_full t fs
  refine ⟨?_, ?_, ?_⟩
  · cases fs with
    | nil => simp [FrameRing.pop_nearest_at_or_before]
    | cons f rest =>
        simp only [FrameRing.pop_nearest_at_or_before]
        cases hscan : FrameRing.bestScan t (f :: rest) 0 none with
        | none => simp
        | some p =>
            obtain ⟨i, dt⟩ := p
            rw [hscan] at hAcc
            obtain ⟨g, hget, -⟩ := hAcc
            simp [hget]
  · rintro ⟨f0, hf0, hf0t⟩
    cases fs with
    | nil => cases hf0
    | cons f rest =>
        cases hscan : FrameRing.bestScan t (f :: rest) 0 none with
        | none =>
            rw [hscan] at hAcc
            exact absurd hf0t (hAcc f0 hf0)
        | some p =>
            obtain ⟨i, dt⟩ := p
            rw [hscan] at hAcc
            obtain ⟨g, hget, hgle, hdt, hmax⟩ := hAcc
            have hi : i < (f :: rest).length :=
              (List.getElem?_eq_some.1 hget).1
            refine ⟨i, g, hget, ?_, ?_, hgle, ?_, ?_⟩
            · simp [FrameRing.pop_nearest_at_or_before, hscan, hget]
            · simp [FrameRing.pop_nearest_at_or_before, hscan]
            · intro f1 hf1 hf1t
              have := hmax f1 hf1 hf1t
              rw [hdt] at this
              linarith
            · simp only [FrameRing.pop_nearest_at_or_before, hscan]
              exact List.length_eraseIdx_add_one hi
  · intro hnone hne
    cases fs with
    | nil => exact absurd rfl hne
    | cons f rest =>
        cases hscan : FrameRing.bestScan t (f :: rest) 0 none with
        | none => simp [FrameRing.pop_nearest_at_or_before, hscan]
        | some p =>
            obtain ⟨i, dt⟩ := p
            rw [hscan] at hAcc
            obtain ⟨g, hget, hgle, -⟩ := hAcc
            have hmem : g ∈ f :: rest := by
              obtain ⟨hi, he⟩ := List.getElem?_eq_some.1 hget
              exact he ▸ List.getElem_mem hi
            exact absurd hgle (hnone g hmem)

/-- Witness for C1 at a concrete ring: pts `{5, 6}`, target `1` — no
frame qualifies, so the oldest is removed and returned. -/
theorem C1_pop_nearest_at_or_before_correct_witness :
    ((FrameRing.mk [exFrame 5, exFrame 6]
        12).pop_nearest_at_or_before 1).1 =
      ([exFrame 5, exFrame 6] : List VideoFrame).head? ∧
    ((FrameRing.mk [exFrame 5, exFrame 6]
        12).pop_nearest_at_or_before 1).2.frames =
      ([exFrame 5, exFrame 6] : List VideoFrame).tail :=
  (C1_pop_nearest_at_or_before_correct.1
      (FrameRing.mk [exFrame 5, exFrame 6] 12) 1).2.2
    (by decide) (by decide)

/-- **C9**: every FrameRing operation preserves `len ≤ cap` (given the
ring is well formed, `0 < cap` — the backend always uses capacity 12);
in particular `push` at capacity first evicts the oldest frame (FIFO)
and then appends, so the length never exceeds the capacity. -/
theorem C9_frame_ring_capacity_invariant :
    ∀ (r : FrameRing) (f : VideoFrame) (t : ℚ),
      0 < r.cap → r.frames.length ≤ r.cap →
      ((r.push f).cap = r.cap ∧ (r.push f).frames.length ≤ r.cap ∧
        (r.frames.length = r.cap →
          (r.push f).frames = r.frames.tail ++ [f]) ∧
        (r.frames.length < r.cap → (r.push f).frames = r.frames ++ [f]) ∧
        (r.clear).cap = r.cap ∧ (r.clear).frames.length ≤ r.cap ∧
        ((r.pop_nearest_at_or_before t).2.cap = r.cap ∧
          (r.pop_nearest_at_or_before t).2.frames.length ≤ r.cap)) := by
  intro r f t hcap hlen
  have hclear : (r.clear).cap = r.cap ∧ (r.clear).frames.length ≤ r.cap := by
    constructor
    · rfl
    · simp [FrameRing.clear]
  refine ⟨?_, ?_, ?_, ?_, hclear.1, hclear.2, ?_, ?_⟩
  · unfold FrameRing.push
    split <;> rfl
  · by_cases h : r.frames.length ≥ r.cap
    · have hne : r.frames ≠ [] := by
        intro h0
        rw [h0] at h
        simp only [List.length_nil] at h
        omega
      simp only [FrameRing.push, if_pos h]
      have ht : r.frames.tail.length = r.frames.length - 1 := by simp
      simp only [List.length_append, List.length_singleton, ht]
      have hpos : 0 < r.frames.length := List.length_pos.2 hne
      omega
    · simp only [FrameRing.push, if_neg h]
      simp only [List.length_append, List.length_singleton]
      omega
  · intro heq
    have h : r.frames.length ≥ r.cap := le_of_eq heq.symm
    simp [FrameRing.push, if_pos h]
  · intro hlt
    have h : ¬ r.frames.length ≥ r.cap := not_le.2 hlt
    simp [FrameRing.push, if_neg h]
  · cases hf : r.frames with
    | nil => simp [FrameRing.pop_nearest_at_or_before, hf]
    | cons g rest =>
        simp only [FrameRing.pop_nearest_at_or_before, hf]
        cases FrameRing.bestScan t (g :: rest) 0 none with
        | none => rfl
        | some p => rfl
  · cases hf : r.frames with
    | nil => simp [FrameRing.pop_nearest_at_or_before, hf]
    | cons g rest =>
        simp only [FrameRing.pop_nearest_at_or_before, hf]
        rw [hf] at hlen
        cases FrameRing.bestScan t (g :: rest) 0 none with
        | none =>
            simp only [List.tail_cons]
            simp only [List.length_cons] at hlen
            omega
        | some p =>
            have hle : ((g :: rest).eraseIdx p.1).length ≤
                (g :: rest).length := List.length_eraseIdx_le _ _
            exact le_trans hle hlen

/-- Witness for C9 at the backend's actual ring: capacity 12, one frame
stored, push another. -/
theorem C9_frame_ring_capacity_invariant_witness :
    ((FrameRing.mk [exFrame 1] 12).push (exFrame 2)).cap = 12 ∧
      ((FrameRing.mk [exFrame 1] 12).push (exFrame 2)).frames.length ≤
        12 := by
  have h := C9_frame_ring_capacity_invariant
    (FrameRing.mk [exFrame 1] 12) (exFrame 2) 0 (by norm_num) (by decide)
  exact ⟨h.1, h.2.1⟩

/-- **C4**: a `Pause` command received while a seek decode is pending
has no effect; while the seek is in flight the worker's state never
becomes `Paused` through any command; a seeking/scrubbing tick ends in
`Paused` exactly when it published an accurate (`accurate = true`)
frame. -/
theorem C4_pause_deferred_until_accurate :
    (∀ (now : ℕ) (s : WState),
      s.need_seek_decode = true → handleCmd now s .Pause = (s, [])) ∧
    (∀ (now : ℕ) (s : WState) (c : DecodeCmd),
      s.need_seek_decode = true → s.mode = .Seeking →
      (handleCmd now s c).1.mode ≠ .Paused) ∧
    (∀ (fps : ℚ) (now : ℕ) (s : WState) (d : Option VideoFrame),
      s.mode = .Seeking ∨ s.mode = .Scrubbing →
      ((seekTick fps now s d).state.mode = .Paused ↔
        ∃ out, (seekTick fps now s d).published = some out ∧
          out.accurate = true)) := by
  refine ⟨?_, ?_, ?_⟩
  · intro now s hn
    simp [handleCmd, hn]
  · intro now s c hn hm
    cases c with
    | Play p r =>
        simp only [handleCmd]
        split
        · simp
        · simp [hm]
    | Seek t => simp [handleCmd]
    | Pause => simp [handleCmd, hn, hm]
    | Stop => simp [handleCmd, hm]
  · intro fps now s d hmode
    have hmp : s.mode ≠ .Paused := by
      rcases hmode with h | h <;> simp [h]
    cases hn : s.need_seek_decode with
    | false =>
        rw [seekTick_not_need fps now s d hn]
        simp [hmp]
    | true =>
        cases d with
        | none =>
            have h := seekTick_none_char fps now s hn
            rw [h.1, h.2.1]
            simp [hmp]
        | some vf =>
            have h := seekTick_some_char fps now s vf hn
            rw [h.1, h.2.1]
            cases ha : s.approx_shown with
            | false =>
                rw [ha] at *
                simp [hmp]
            | true =>
                rw [ha] at *
                simp

/-- Witness for C4: a pending-seek state; `Pause` is a no-op there. -/
theorem C4_pause_deferred_until_accurate_witness :
    handleCmd 5 exStalled .Pause = (exStalled, []) :=
  C4_pause_deferred_until_accurate.1 5 exStalled rfl

/-- **C5 (amended)**: for a seek processed with no approximate frame of
a previous seek still pending refinement (`approx_shown = false`), the
two-stage protocol holds: the first successful decode publishes
`accurate = false` after a key-unit seek, arming the accurate stage;
the next successful decode publishes `accurate = true` after a precise
seek and moves the worker to `Paused`. -/
theorem C5_two_stage_seek :
    ∀ (fps : ℚ) (now : ℕ) (s : WState) (vf : VideoFrame),
      s.need_seek_decode = true → s.last_seek_target = none →
      ((s.approx_shown = false →
        (seekTick fps now s (some vf)).calls =
            [.seek_to_keyframe s.anchor_pts] ∧
          (seekTick fps now s (some vf)).published =
            some ⟨vf.timestamp, ⟨vf.width, vf.height, fps, vf.format⟩,
              vf.y_plane, vf.uv_plane, false⟩ ∧
          (seekTick fps now s (some vf)).state.mode = s.mode ∧
          (seekTick fps now s (some vf)).state.need_seek_decode = true ∧
          (seekTick fps now s (some vf)).state.approx_shown = true ∧
          (seekTick fps now s (some vf)).state.last_seek_target = none) ∧
       (s.approx_shown = true →
        (seekTick fps now s (some vf)).calls = [.seek_to s.anchor_pts] ∧
          (seekTick fps now s (some vf)).published =
            some ⟨vf.timestamp, ⟨vf.width, vf.height, fps, vf.format⟩,
              vf.y_plane, vf.uv_plane, true⟩ ∧
          (seekTick fps now s (some vf)).state.mode = .Paused ∧
          (seekTick fps now s (some vf)).state.need_seek_decode = false ∧
          (seekTick fps now s (some vf)).state.approx_shown = false)) := by
  intro fps now s vf hn hl
  have hc := seekTick_some_calls fps now s vf hn hl
  have hch := seekTick_some_char fps now s vf hn
  constructor
  · intro ha
    rw [ha] at hc hch
    simp only [Bool.not_false, if_true, if_false] at hc hch
    refine ⟨by simpa using hc, hch.1, by simpa using hch.2.1,
      by simpa using hch.2.2.1, by simpa using hch.2.2.2.1,
      hch.2.2.2.2⟩
  · intro ha
    rw [ha] at hc hch
    simp only [Bool.not_true] at hc hch
    refine ⟨by simpa using hc, hch.1, by simpa using hch.2.1,
      by simpa using hch.2.2.1, by simpa using hch.2.2.2.1⟩

/-- Witness for C5 at a concrete just-seeked state. -/
theorem C5_two_stage_seek_witness :
    (seekTick 30 7 (handleCmd 0 (initWState 0) (.Seek 1)).1
        (some (exFrame 1))).published =
      some ⟨1, ⟨0, 0, 30, .Nv12⟩, [], [], false⟩ :=
  ((C5_two_stage_seek 30 7 (handleCmd 0 (initWState 0) (.Seek 1)).1
      (exFrame 1) rfl rfl).1 rfl).2.1

/-- Counterexample to C5 as stated: a `Seek{2}` arriving between the
approximate and accurate stages of a previous `Seek{1}` inherits
`approx_shown = true`, so the very first frame published for it is
`accurate = true` and follows a precise (`seek_to`), not key-unit,
seek. -/
theorem C5_seek_mid_flight_counterexample :
    ∃ out,
      (seekTick 30 0
          (handleCmd 0
            (seekTick 30 0 (handleCmd 0 (initWState 0) (.Seek 1)).1
              (some (exFrame 1))).state
            (.Seek 2)).1
          (some (exFrame 2))).published = some out ∧
        out.accurate = true ∧
        (seekTick 30 0
            (handleCmd 0
              (seekTick 30 0 (handleCmd 0 (initWState 0) (.Seek 1)).1
                (some (exFrame 1))).state
              (.Seek 2)).1
            (some (exFrame 2))).calls = [.seek_to 2] :=
  ⟨_, rfl, rfl, rfl⟩

/-- **C6**: `Play{start_pts, rate}` while not `Playing` re-anchors the
worker clock (anchor pts/instant), switches the backend out of strict
pause, and clears the pending-seek bookkeeping; while already
`Playing` it only updates the rate (the seek flags are already clear in
every reachable `Playing` state, as the invariant conjuncts show). -/
theorem C6_play_reanchor_only_when_entering :
    (∀ (now : ℕ) (s : WState) (p r : ℚ), s.mode ≠ .Playing →
      handleCmd now s (.Play p r) =
        ({ s with
            mode := .Playing,
            anchor_pts := p,
            anchor_t := now,
            rate := r,
            need_seek_decode := false,
            last_seek_target := none,
            seek_started_at := none },
         [.set_strict_paused false])) ∧
    (∀ (now : ℕ) (s : WState) (p r : ℚ), s.mode = .Playing → WInv s →
      handleCmd now s (.Play p r) = ({ s with rate := r }, [])) ∧
    (∀ now : ℕ, WInv (initWState now)) ∧
    (∀ (s : WState) (e : WEvent), WInv s → WInv (wstep s e)) := by
  refine ⟨?_, ?_, ?_, ?_⟩
  · intro now s p r h
    simp [handleCmd, h]
  · intro now s p r h hinv
    obtain ⟨h1, h2, h3⟩ := hinv h
    obtain ⟨mo, ra, ap, at_, ru, ne, la, st, ax⟩ := s
    simp only [handleCmd, h]
    simp only at h1 h2 h3
    subst h1
    subst h2
    subst h3
    simp
    exact h
  · intro now
    simp [WInv, initWState]
  · intro s e hinv
    cases e with
    | cmd c now =>
        cases c with
        | Play p r =>
            simp only [wstep, handleCmd]
            split <;> intro _ <;> simp
        | Seek t =>
            simp only [wstep, handleCmd]
            intro h
            simp at h
        | Pause =>
            simp only [wstep, handleCmd]
            cases hn : s.need_seek_decode with
            | true => simpa using hinv
            | false =>
                simp only [Bool.false_eq_true, if_false]
                intro h
                simp at h
        | Stop =>
            simp only [wstep, handleCmd]
            intro h
            simp only at h
            obtain ⟨h1, h2, h3⟩ := hinv h
            exact ⟨h1, h2, h3⟩
    | tick d fps now =>
        simp only [wstep]
        split
        · intro h
          rcases seekTick_mode_cases fps now s d with hc | hc
          · rw [h] at hc
            rename_i hsm
            rcases hsm with hs | hs <;> rw [hs] at hc <;> cases hc
          · rw [h] at hc
            cases hc
        · exact hinv

/-- Witness for C6: entering `Playing` from the initial (paused) state
re-anchors. -/
theorem C6_play_reanchor_only_when_entering_witness :
    handleCmd 3 (initWState 0) (.Play 7 2) =
      ({ initWState 0 with
          mode := .Playing,
          anchor_pts := 7,
          anchor_t := 3,
          rate := 2,
          need_seek_decode := false,
          last_seek_target := none,
          seek_started_at := none },
       [.set_strict_paused false]) :=
  C6_play_reanchor_only_when_entering.1 3 (initWState 0) 7 2 (by decide)

/-- **C8 (amended)**: while seeking with no frame arriving, the worker
re-issues the same seek (key-unit before the approximate stage, precise
after) exactly when the elapsed time exceeds a fixed 800 ms timeout —
not an adaptive, frame-duration-scaled one — leaving the play state
unchanged. -/
theorem C8_stall_reissue_fixed_timeout :
    ∀ (fps : ℚ) (now t0 : ℕ) (s : WState),
      s.need_seek_decode = true →
      s.last_seek_target = some s.anchor_pts →
      s.seek_started_at = some t0 →
      ((now - t0 > 800 →
        seekTick fps now s none =
          ⟨{ s with seek_started_at := some now },
            none,
            [if !s.approx_shown then .seek_to_keyframe s.anchor_pts
             else .seek_to s.anchor_pts]⟩) ∧
       (¬ now - t0 > 800 → seekTick fps now s none = ⟨s, none, []⟩)) := by
  intro fps now t0 s hn hl hst
  have hissue := seekIssue_of_last_self now s hl
  constructor
  · intro h
    simp only [seekTick, hn, if_true, hissue, seekDecodeOutcome, hst,
      if_pos h]
    refine SeekTickOut.ext ?_ rfl (by simp)
    exact WState.ext rfl rfl rfl rfl rfl rfl hl.symm rfl rfl
  · intro h
    simp only [seekTick, hn, if_true, hissue, seekDecodeOutcome, hst,
      if_neg h]

/-- Witness for C8 at the concrete stalled state, 900 ms elapsed. -/
theorem C8_stall_reissue_fixed_timeout_witness :
    seekTick 30 900 exStalled none =
      ⟨{ exStalled with seek_started_at := some 900 },
        none, [.seek_to_keyframe 2]⟩ := by
  have h := (C8_stall_reissue_fixed_timeout 30 900 0 exStalled rfl rfl
    rfl).1 (by norm_num)
  simpa [exStalled] using h

/-- Counterexample to C8 as stated: with a 4 fps clip (frame duration
0.25 s) the spec's adaptive timeout is its 1500 ms ceiling, yet the
worker already re-issues the stalled seek at 900 ms elapsed — the
timeout is the fixed 800 ms, not scaled to the clip's frame
duration. -/
theorem C8_fixed_not_adaptive_counterexample :
    (seekTick 30 900 exStalled none).calls ≠ [] ∧
      ¬ 900 - 0 > adaptiveTimeoutSpecMs (1 / 4) := by
  constructor
  · have h0 : ¬ machineEps < 0 := by
      simp only [machineEps]
      norm_num
    norm_num [seekTick, seekIssue, seekDecodeOutcome, exStalled, h0]
  · have hval : adaptiveTimeoutSpecMs (1 / 4) = 1500 := by
      have : min (max ((1 / 4 : ℚ) * 1000 * 8) 450) 1500 = 1500 := by
        norm_num
      rw [adaptiveTimeoutSpecMs, this]
      norm_num
      rfl
    rw [hval]
    norm_num


/-- Run lemma: once a seek pts has been sent and every later target
stays within epsilon of it, no further `Seek` is sent. -/
lemma seekDispatchRun_zero (eps p : ℚ) :
    ∀ ts : List ℚ, WithinEps eps (some p) ts →
      seekDispatchRun eps (some p) ts = (some p, 0)
  | [], _ => rfl
  | t :: ts, h => by
      obtain ⟨h1, h2⟩ := h
      have hstep : seekDispatchStep eps (some p) t = (some p, false) := by
        simp [seekDispatchStep, not_lt.2 h1]
      simp only [seekDispatchRun, hstep]
      simp [seekDispatchRun_zero eps p ts h2]

/-- Counterexample to C2 as stated: with strict pause disabled and
state `Paused`, a latest frame far outside tolerance is still presented
(the `other => other` arm falls back to the newest frame) instead of
keeping the previous display frame. -/
theorem C2_out_of_tolerance_presented :
    pickFrame .Paused false (some lateFrame) 0 (displayTol (1 / 24)) =
        some lateFrame ∧
      ¬ |lateFrame.pts - 0| ≤ displayTol (1 / 24) := by
  constructor
  · simp [pickFrame, ite_self]
  · simp only [lateFrame, displayTol]
    norm_num [max_def]

/-- **C2 (amended)**: the frame selector presents the latest published
frame in every state — `Playing` and strict pause unconditionally, and
with strict pause disabled as well, because the out-of-tolerance arm of
the match (`other => other`) also yields the newest frame; the
tolerance test never changes the selection and the previous display
frame is never kept back. -/
theorem C2_selector_presents_latest :
    ∀ (state : PlayState) (strict : Bool) (newest : Option VideoFrameOut)
      (media_t tol : ℚ),
      pickFrame state strict newest media_t tol = newest := by
  intro state strict newest media_t tol
  unfold pickFrame
  split
  · rfl
  · split
    · rfl
    · cases newest with
      | none => rfl
      | some f => exact ite_self _

/-- **C3**: the dispatcher computes `ε = max(0.25·frame_dur, 0.010 s)`;
in `Seeking`/`Scrubbing` it sends `Seek{target}` iff no seek has been
sent yet or `|target − last_seek_sent| > ε`; consequently any run of
dispatch calls whose targets each stay within ε of the last-sent seek
pts sends at most one `Seek` in total. -/
theorem C3_epsilon_gated_dispatch :
    (∀ fd : ℚ, epsilonOf fd = max ((25 / 100) * fd) (10 / 1000)) ∧
    (∀ (eps : ℚ) (last : Option ℚ) (target : ℚ),
      (seekDispatchStep eps last target).2 = true ↔
        (last = none ∨ ∃ p, last = some p ∧ |target - p| > eps)) ∧
    (∀ (eps : ℚ) (st : Option ℚ) (ts : List ℚ),
      WithinEps eps st ts → (seekDispatchRun eps st ts).2 ≤ 1) := by
  refine ⟨?_, ?_, ?_⟩
  · intro fd
    norm_num [epsilonOf]
  · intro eps last target
    cases last with
    | none => simp [seekDispatchStep]
    | some p =>
        by_cases hp : |target - p| > eps
        · simp [seekDispatchStep, hp]
        · simp [seekDispatchStep, hp]
  · intro eps st ts hw
    cases st with
    | some p =>
        rw [seekDispatchRun_zero eps p ts hw]
        norm_num
    | none =>
        cases ts with
        | nil => simp [seekDispatchRun]
        | cons t ts =>
            have hstep : seekDispatchStep eps none t = (some t, true) := by
              simp [seekDispatchStep]
            have hw2 : WithinEps eps (some t) ts := hw
            simp only [seekDispatchRun, hstep,
              seekDispatchRun_zero eps t ts hw2]
            norm_num

/-- Witness for C3: two targets within epsilon of the first send. -/
theorem C3_epsilon_gated_dispatch_witness :
    (seekDispatchRun 1 none [5, 5]).2 ≤ 1 :=
  C3_epsilon_gated_dispatch.2.2 1 none [5, 5] (by norm_num [WithinEps])

/-- **C7**: in state `Paused` the dispatcher sends `Seek{media_t}` iff
the epsilon test fails to match (no seek sent yet, or
`|media_t − last_seek_sent| > ε`) OR the stale-seek condition holds:
the elapsed time since the last seek request exceeds the adaptive
timeout — 8 frame durations clamped between fixed 450 ms and 1500 ms
bounds — while the most recently published frame is still only
approximate (`accurate = false`). -/
theorem C7_paused_dispatch_iff :
    ∀ (eps fd : ℚ) (lastSent : Option ℚ) (lastReq : Option ℕ) (now : ℕ)
      (f : VideoFrameOut) (media_t : ℚ),
      (pausedDispatchSends eps fd lastSent lastReq now (some f) media_t =
          true ↔
        ((lastSent = none ∨ ∃ p, lastSent = some p ∧ |media_t - p| > eps) ∨
          (∃ t0, lastReq = some t0 ∧ now - t0 > adaptiveMs fd ∧
            f.accurate = false))) ∧
      450 ≤ adaptiveMs fd ∧ adaptiveMs fd ≤ 1500 := by
  intro eps fd lastSent lastReq now f media_t
  refine ⟨?_, ?_, ?_⟩
  · cases lastSent with
    | none => simp [pausedDispatchSends]
    | some p =>
        by_cases hp : |media_t - p| > eps
        · simp [pausedDispatchSends, hp]
        · cases lastReq with
          | none => simp [pausedDispatchSends, hp]
          | some t0 =>
              cases hacc : f.accurate with
              | true => simp [pausedDispatchSends, hp, hacc]
              | false =>
                  by_cases ht : now - t0 > adaptiveMs fd
                  · simp [pausedDispatchSends, hp, hacc, ht]
                  · simp [pausedDispatchSends, hp, hacc, ht]
  · have hx1 : (450 : ℚ) ≤ min (max (fd * 1000 * 8) 450) 1500 :=
      le_min (le_max_right _ _) (by norm_num)
    have hf1 : (450 : ℤ) ≤ ⌊min (max (fd * 1000 * 8) 450) 1500⌋ :=
      Int.le_floor.2 (by exact_mod_cast hx1)
    rw [adaptiveMs]
    omega
  · have hx2 : min (max (fd * 1000 * 8) 450) 1500 ≤ (1500 : ℚ) :=
      min_le_right _ _
    have hf2 : ⌊min (max (fd * 1000 * 8) 450) 1500⌋ ≤ ⌊(1500 : ℚ)⌋ :=
      Int.floor_le_floor hx2
    have h1500 : ⌊(1500 : ℚ)⌋ = 1500 := by norm_num
    rw [h1500] at hf2
    rw [adaptiveMs]
    omega

/-- **C10**: `decode_frame` issues an internal pipeline seek iff strict
pause mode is off, the ring is empty, and either nothing was ever
output or the requested timestamp is more than 0.25 s away from the
last output pts; in strict-paused mode `decode_frame` never re-seeks,
and the explicit `seek_to` / `seek_to_keyframe` calls set strict mode,
clear the ring, record `last_seek`, and issue exactly their accurate /
key-unit pipeline seek. -/
theorem C10_decode_frame_seek_policy :
    (∀ (d : GstDecoder) (ts : ℚ) (incoming : List VideoFrame),
      (((d.decode_frame ts incoming).2.2 ≠ []) ↔
        (d.strict_paused = false ∧ d.ring.frames = [] ∧
          (d.last_out_pts = none ∨
            ∃ p, d.last_out_pts = some p ∧ |ts - p| > 1 / 4))) ∧
      (d.strict_paused = true → (d.decode_frame ts incoming).2.2 = [])) ∧
    (∀ (d : GstDecoder) (ts : ℚ),
      (d.seek_to ts).1.ring.frames = [] ∧
      (d.seek_to ts).1.strict_paused = true ∧
      (d.seek_to ts).1.last_seek = ts ∧
      (d.seek_to ts).2 = [.flush_accurate ts] ∧
      (d.seek_to_keyframe ts).1.ring.frames = [] ∧
      (d.seek_to_keyframe ts).1.strict_paused = true ∧
      (d.seek_to_keyframe ts).1.last_seek = ts ∧
      (d.seek_to_keyframe ts).2 = [.flush_key_unit ts]) := by
  constructor
  · intro d ts incoming
    constructor
    · cases hs : d.strict_paused with
      | true =>
          simp [GstDecoder.decode_frame, hs]
      | false =>
          cases hr : d.ring.frames with
          | cons g rest =>
              have hlen : d.ring.len ≠ 0 := by
                simp [FrameRing.len, hr]
              simp [GstDecoder.decode_frame, hs, hr, hlen,
                FrameRing.len]
          | nil =>
              have hlen : d.ring.len = 0 := by simp [FrameRing.len, hr]
              cases hl : d.last_out_pts with
              | none =>
                  simp [GstDecoder.decode_frame, hs, hr, hlen, hl,
                    GstDecoder.seek_to_internal]
              | some p =>
                  by_cases hj : |ts - p| > 1 / 4
                  · have hj4 : (4 : ℚ)⁻¹ < |ts - p| := by
                      rw [inv_eq_one_div]; exact hj
                    simp [GstDecoder.decode_frame, hs, hr, hlen, hl,
                      GstDecoder.seek_to_internal, hj4]
                  · have hj4 : ¬ (4 : ℚ)⁻¹ < |ts - p| := by
                      rw [inv_eq_one_div]; exact hj
                    simp [GstDecoder.decode_frame, hs, hr, hlen, hl,
                      GstDecoder.seek_to_internal, hj4]
    · intro hs
      simp [GstDecoder.decode_frame, hs]
  · intro d ts
    exact ⟨rfl, rfl, rfl, rfl, rfl, rfl, rfl, rfl⟩

/-- Witness for C10: a strict-paused decoder never issues an internal
pipeline seek from `decode_frame`. -/
theorem C10_decode_frame_seek_policy_witness :
    ((⟨true, FrameRing.new 12, -1, none⟩ :
        GstDecoder).decode_frame 0 []).2.2 = [] :=
  (C10_decode_frame_seek_policy.1
    (⟨true, FrameRing.new 12, -1, none⟩ : GstDecoder) 0 []).2 rfl

end Gausian
